import Mathlib

/-!
Shallow embedding of the conbench comparison / pagination / parsing core
(`conbench/api/compare.py`, `conbench/api/results.py`) and proofs about it.

Modelling conventions:
- Python floats are modelled by `Conbench.PFloat`: either NaN or an exact
  rational number.  Arithmetic propagates NaN; comparisons with NaN are false,
  as in IEEE/Python semantics.
- Database and collaborator services (entity store, z-score annotator,
  unit-metadata lookup) are parameters of the embedded endpoint functions.
- Python exceptions/aborts are modelled as explicit `Except` / result values.
-/

namespace Conbench

/-- A Python `float` value as used in this code base: either NaN or a real
number (modelled as an exact rational). -/
inductive PFloat where
  | nan : PFloat
  | val : ℚ → PFloat
deriving DecidableEq

namespace PFloat

/-- Embeds `math.isnan`. -/
def isNaN : PFloat → Bool
  | nan => true
  | val _ => false

/-- Float subtraction; NaN propagates. -/
def sub : PFloat → PFloat → PFloat
  | val a, val b => val (a - b)
  | _, _ => nan

/-- Float negation (`-x`); NaN propagates. -/
def pneg : PFloat → PFloat
  | val a => val (-a)
  | nan => nan

/-- Float absolute value (`abs(x)`); NaN propagates. -/
def pabs : PFloat → PFloat
  | val a => val |a|
  | nan => nan

/-- Float division; NaN propagates.  Division by (exact) zero would raise
`ZeroDivisionError` in Python; the embedded code only divides after guarding
against a zero divisor, so that branch is unreachable and mapped to NaN. -/
def pdiv : PFloat → PFloat → PFloat
  | val a, val b => if b = 0 then nan else val (a / b)
  | _, _ => nan

/-- Multiplication by the literal `100.0`; NaN propagates. -/
def mul100 : PFloat → PFloat
  | val a => val (a * 100)
  | nan => nan

/-- Python `x > t` for a float `x` and a real threshold `t`:
false whenever `x` is NaN. -/
def gtQ : PFloat → ℚ → Bool
  | nan, _ => false
  | val a, t => decide (t < a)

/-- Python `x == 0`: false for NaN. -/
def eqZero : PFloat → Bool
  | nan => false
  | val a => decide (a = 0)

end PFloat

/-- Modelled from the spec: `conbench.numstr` is not under `src/`.  Helper for
round-to-significant-figures: the floor of the base-10 logarithm of a nonzero
rational (`10 ^ ratLog10floor q ≤ |q| < 10 ^ (ratLog10floor q + 1)`). -/
def ratLog10floor (q : ℚ) : ℤ :=
  let a : ℤ := Nat.log 10 q.num.natAbs
  let b : ℤ := Nat.log 10 q.den
  if (10 : ℚ) ^ (a - b) ≤ |q| then a - b else a - b - 1

/-- Modelled from the spec: `conbench.numstr.numstr(value, sigfigs)` is not
under `src/`; per the spec it renders a number rounded to `sigfigs`
significant figures.  Embedded as exact rounding of a rational to `s`
significant decimal figures. -/
def roundSigFigs (s : ℕ) (q : ℚ) : ℚ :=
  if q = 0 then 0
  else
    let sh : ℤ := (s : ℤ) - 1 - ratLog10floor q
    ((round (q * (10 : ℚ) ^ sh) : ℤ) : ℚ) * (10 : ℚ) ^ (-sh)

/-- Embeds `compare.py` `_round`: round a float to 4 significant figures, or `None`
(JSON `null`) if the input is NaN. -/
def _round : PFloat → Option ℚ
  | PFloat.nan => none
  | PFloat.val q => some (roundSigFigs 4 q)

/-- Embeds `compare.py` `DEFAULT_PAIRWISE_PERCENT_THRESHOLD = 5.0`. -/
def DEFAULT_PAIRWISE_PERCENT_THRESHOLD : ℚ := 5

/-- Embeds `compare.py` `DEFAULT_Z_SCORE_THRESHOLD = 5.0`. -/
def DEFAULT_Z_SCORE_THRESHOLD : ℚ := 5

/-- The fields of an (augmented) `BenchmarkResult` entity that the compare
module reads.  `z_score` is the transient augmentation installed by
`set_z_scores`; `commit` is the optional associated commit. -/
structure BenchmarkResult where
  id : String
  unit : Option String
  svs : PFloat
  is_failed : Bool
  z_score : Option PFloat
  history_fingerprint : String
  commit : Option String
  run_id : String
deriving DecidableEq

/-- Python truthiness of an optional string (`None` and `""` are falsy). -/
def strTruthy : Option String → Bool
  | none => false
  | some s => decide (s ≠ "")

/-- The `do_comparison` computation at the top of
`BenchmarkResultComparator.__init__` (`compare.py` lines 143-158), statement
by statement. -/
def computeDoComparison (baseline contender : Option BenchmarkResult) : Bool :=
  let d1 := true
  let d2 := if !(baseline.isSome && contender.isSome) then false else d1
  let d3 :=
    if (match baseline with | some b => b.is_failed | none => false) then false else d2
  let d4 :=
    if (match contender with | some c => c.is_failed | none => false) then false else d3
  d4

/-- The payload of `UnmatchingUnitsError`: the Python exception message
interpolates exactly the two result IDs and the two units. -/
structure UnmatchingUnitsError where
  baseline_id : String
  baseline_unit : Option String
  contender_id : String
  contender_unit : Option String
deriving DecidableEq

/-- Ways `BenchmarkResultComparator.__init__` can raise: the
`UnmatchingUnitsError` it raises explicitly, or an `assert` statement
failing (`AssertionError`). -/
inductive ComparatorError where
  | unmatchingUnits (e : UnmatchingUnitsError)
  | assertionError
deriving DecidableEq

/-- The state of a successfully constructed `BenchmarkResultComparator`. -/
structure BenchmarkResultComparator where
  unit : Option String
  do_comparison : Bool
  baseline : Option BenchmarkResult
  contender : Option BenchmarkResult
  threshold : ℚ
  threshold_z : ℚ
deriving DecidableEq

/-- Embeds `BenchmarkResultComparator.__init__` (`compare.py` lines 133-195):
compute `do_comparison`; under `do_comparison` assert both results and both
units are truthy, raise `UnmatchingUnitsError` when the units differ, and
record the common unit; resolve thresholds to their defaults. -/
def BenchmarkResultComparator.make (baseline contender : Option BenchmarkResult)
    (threshold threshold_z : Option ℚ) :
    Except ComparatorError BenchmarkResultComparator :=
  let do_comparison := computeDoComparison baseline contender
  let thr := threshold.getD DEFAULT_PAIRWISE_PERCENT_THRESHOLD
  let thrz := threshold_z.getD DEFAULT_Z_SCORE_THRESHOLD
  if do_comparison then
    match baseline, contender with
    | some b, some c =>
      if strTruthy b.unit then
        if strTruthy c.unit then
          if b.unit ≠ c.unit then
            .error (.unmatchingUnits ⟨b.id, b.unit, c.id, c.unit⟩)
          else
            .ok ⟨b.unit, do_comparison, baseline, contender, thr, thrz⟩
        else .error .assertionError
      else .error .assertionError
    | _, _ => .error .assertionError
  else
    .ok ⟨none, do_comparison, baseline, contender, thr, thrz⟩

/-- Embeds `BenchmarkResultComparator.less_is_better`: defined only when the
comparison has a unit; delegates to the external unit-metadata lookup
(`conbench.units.less_is_better`), passed here as the parameter `lib`. -/
def BenchmarkResultComparator.less_is_better (lib : String → Bool)
    (c : BenchmarkResultComparator) : Option Bool :=
  match c.unit with
  | none => none
  | some u => some (lib u)

/-- The dict returned by a non-null `pairwise_analysis`. -/
structure PairwiseAnalysis where
  percent_change : Option ℚ
  percent_threshold : ℚ
  regression_indicated : Bool
  improvement_indicated : Bool
deriving DecidableEq

/-- Embeds `BenchmarkResultComparator.pairwise_analysis` (`compare.py`
lines 225-256), parameterized by the external unit-metadata lookup `lib`. -/
def BenchmarkResultComparator.pairwise_analysis (lib : String → Bool)
    (c : BenchmarkResultComparator) : Option PairwiseAnalysis :=
  if !c.do_comparison then none
  else
    match c.baseline, c.contender with
    | some b, some ct =>
      if PFloat.eqZero b.svs then none
      else
        let relative_change0 := PFloat.pdiv (PFloat.sub ct.svs b.svs) (PFloat.pabs b.svs)
        let relative_change :=
          if (c.less_is_better lib).getD false then PFloat.pneg relative_change0
          else relative_change0
        let percent_change := PFloat.mul100 relative_change
        some ⟨_round percent_change, c.threshold,
          PFloat.gtQ (PFloat.pneg percent_change) c.threshold,
          PFloat.gtQ percent_change c.threshold⟩
    | _, _ => none

/-- The dict returned by a non-null `lookback_z_score_analysis`. -/
structure LookbackZScoreAnalysis where
  z_threshold : ℚ
  z_score : Option ℚ
  regression_indicated : Bool
  improvement_indicated : Bool
deriving DecidableEq

/-- Embeds `BenchmarkResultComparator.lookback_z_score_analysis` (`compare.py`
lines 258-277). -/
def BenchmarkResultComparator.lookback_z_score_analysis
    (c : BenchmarkResultComparator) : Option LookbackZScoreAnalysis :=
  if !c.do_comparison then none
  else
    match c.baseline, c.contender with
    | some _, some ct =>
      match ct.z_score with
      | none => none
      | some z =>
        if PFloat.isNaN z then none
        else
          some ⟨c.threshold_z, _round z,
            PFloat.gtQ (PFloat.pneg z) c.threshold_z,
            PFloat.gtQ z c.threshold_z⟩
    | _, _ => none

/-- A comparator built from two absent results. -/
def exampleComparatorNone : BenchmarkResultComparator :=
  ⟨none, false, none, none, DEFAULT_PAIRWISE_PERCENT_THRESHOLD, DEFAULT_Z_SCORE_THRESHOLD⟩

/-- Example baseline result: value 100, unit "s", not failed. -/
def exampleBaseline100 : BenchmarkResult :=
  ⟨"id-base", some "s", PFloat.val 100, false, none, "fp0", none, "run-base"⟩

/-- Example contender result: value 90, unit "s", not failed. -/
def exampleContender90 : BenchmarkResult :=
  ⟨"id-cont", some "s", PFloat.val 90, false, none, "fp0", none, "run-cont"⟩

/-- The comparator over the two example results (thresholds at default 5.0). -/
def exampleComparator10090 : BenchmarkResultComparator :=
  ⟨some "s", true, some exampleBaseline100, some exampleContender90,
    DEFAULT_PAIRWISE_PERCENT_THRESHOLD, DEFAULT_Z_SCORE_THRESHOLD⟩

/-- Example contender carrying a (real) z-score of 0. -/
def exampleContenderZ : BenchmarkResult :=
  ⟨"id-contz", some "s", PFloat.val 90, false, some (PFloat.val 0), "fp0",
    none, "run-cont"⟩

/-- Comparator over the example results where the contender has z-score 0. -/
def exampleComparatorZ : BenchmarkResultComparator :=
  ⟨some "s", true, some exampleBaseline100, some exampleContenderZ,
    DEFAULT_PAIRWISE_PERCENT_THRESHOLD, DEFAULT_Z_SCORE_THRESHOLD⟩

/-- The Python fallback `xs or [None]`: a non-empty group is used as-is, an
empty group is replaced by a single absent placeholder. -/
def orNoneList (l : List BenchmarkResult) : List (Option BenchmarkResult) :=
  match l with
  | [] => [none]
  | _ => l.map some

/-- The set of history fingerprints present in either input list
(`set(baseline_results_by_fing) | set(contender_results_by_fing)`), modelled
as a deduplicated list; a Python set iterates in unspecified order, and no
claim depends on the order chosen here. -/
def joinFingerprints (bs cs : List BenchmarkResult) : List String :=
  (bs.map (·.history_fingerprint) ++ cs.map (·.history_fingerprint)).dedup

/-- The two nested loops of `_join_results` for one fingerprint: the
cartesian product of the baseline members (or a single `None`) with the
contender members (or a single `None`). -/
def groupPairs (bs cs : List BenchmarkResult) (fing : String) :
    List (Option BenchmarkResult × Option BenchmarkResult) :=
  (orNoneList (bs.filter fun r => decide (r.history_fingerprint = fing))).flatMap
    fun b =>
      (orNoneList (cs.filter fun r => decide (r.history_fingerprint = fing))).map
        fun c => (b, c)

/-- Embeds `CompareRunsAPI._join_results` (`compare.py` lines 442-478): group both
sides by history fingerprint and emit, for every fingerprint present on
either side, the cartesian product of the two groups with `None`
placeholders for empty groups. -/
def _join_results (bs cs : List BenchmarkResult) :
    List (Option BenchmarkResult × Option BenchmarkResult) :=
  (joinFingerprints bs cs).flatMap (groupPairs bs cs)

/-- The fingerprint a joined pair belongs to (taken from whichever side is
present). -/
def pairFingerprint :
    Option BenchmarkResult × Option BenchmarkResult → Option String
  | (some b, _) => some b.history_fingerprint
  | (none, some c) => some c.history_fingerprint
  | (none, none) => none

/-- Example contender result carrying a different history fingerprint. -/
def exampleContenderFp1 : BenchmarkResult :=
  ⟨"id-c2", some "s", PFloat.val 7, false, none, "fp1", none, "run-c2"⟩

/-- The 3-character separator `...` of the compare path token. -/
def idSeparator : List Char := ['.', '.', '.']

/-- Python `s.split(sep, 1)` combined with the `sep in s` test, on character
lists: `none` when `sep` does not occur in `x`; otherwise the split of `x`
around the first occurrence of `sep`. -/
def splitOnFirst (sep : List Char) : List Char → Option (List Char × List Char)
  | [] => if sep.isEmpty then some ([], []) else none
  | c :: rest =>
    if sep.isPrefixOf (c :: rest) then some ([], (c :: rest).drop sep.length)
    else (splitOnFirst sep rest).map fun p => (c :: p.1, p.2)

/-- Embeds `compare.py` `_parse_two_ids_or_abort` (lines 54-73): abort 404 when the
token does not contain `...`; split on the first occurrence; abort 404 when
either side is empty. -/
def _parse_two_ids_or_abort (compare_ids : String) :
    Except (ℕ × String) (String × String) :=
  match splitOnFirst idSeparator compare_ids.toList with
  | none =>
    .error (404, "last URL path segment must be of pattern <id>...<id>")
  | some (l, r) =>
    if l = [] then .error (404, "empty baseline ID")
    else if r = [] then .error (404, "empty contender ID")
    else .ok (String.mk l, String.mk r)

/-- The columns of a stored benchmark result row that the listing endpoint
(`results.py` `BenchmarkListAPI.get`) reads. -/
structure DBResultRow where
  id : String
  timestamp : String
  run_id : String
  run_reason : String
deriving DecidableEq

/-- Query arguments of the listing endpoint.  `page_size` is the integer
value of the query argument (Python `int(...)` string parsing abstracted);
`none` models a missing argument, which defaults to 100. -/
structure ListArgs where
  run_id : Option String
  run_reason : Option String
  cursor : Option String
  page_size : Option ℤ
  earliest_timestamp : Option String
  latest_timestamp : Option String

/-- The `filters` list built by `BenchmarkListAPI.get` (`results.py` lines
198-222), in source order: `run_id` filter or the legacy `2023-06-03`
timestamp bound, optional timestamp bounds, optional `run_reason`, and the
cursor predicate `id < cursor` (skipped for an absent/empty/`"null"`
cursor). -/
def listFilters (args : ListArgs) : List (DBResultRow → Bool) :=
  let f1 : List (DBResultRow → Bool) :=
    match args.run_id with
    | some rid =>
      if rid = "" then [fun r => decide ("2023-06-03" ≤ r.timestamp)]
      else [fun r => decide (r.run_id = rid)]
    | none => [fun r => decide ("2023-06-03" ≤ r.timestamp)]
  let f2 : List (DBResultRow → Bool) :=
    match args.earliest_timestamp with
    | some ts => if ts = "" then [] else [fun r => decide (ts ≤ r.timestamp)]
    | none => []
  let f3 : List (DBResultRow → Bool) :=
    match args.latest_timestamp with
    | some ts => if ts = "" then [] else [fun r => decide (r.timestamp ≤ ts)]
    | none => []
  let f4 : List (DBResultRow → Bool) :=
    match args.run_reason with
    | some rr => if rr = "" then [] else [fun r => decide (r.run_reason = rr)]
    | none => []
  let f5 : List (DBResultRow → Bool) :=
    match args.cursor with
    | some cur =>
      if cur = "" ∨ cur = "null" then []
      else [fun r => decide (r.id < cur)]
    | none => []
  f1 ++ f2 ++ f3 ++ f4 ++ f5

/-- Embeds the `page_size` resolution and validation (`results.py` lines 224-231):
default 100, must lie in 1..1000, otherwise the request is aborted. -/
def parsePageSize (arg : Option ℤ) : Option ℤ :=
  let v := arg.getD 100
  if 1 ≤ v ∧ v ≤ 1000 then some v else none

/-- Outcome of an embedded endpoint call. -/
inductive ApiResult (β : Type) where
  | ok (body : β)
  | abort (status : ℕ) (description : String)
  | retryLater (msg : String)
deriving DecidableEq

/-- Embeds `BenchmarkListAPI.get` (`results.py` lines 115-262): build filters,
validate `page_size`, take the first `page_size` matching rows of the store
(`db` is the table content in descending id order, i.e. the result of
`ORDER BY id DESC`), and compute `next_page_cursor` as the id of the last
returned row iff the page is exactly full. -/
def benchmark_results_get (db : List DBResultRow) (args : ListArgs) :
    ApiResult (List DBResultRow × Option String) :=
  let filters := listFilters args
  match parsePageSize args.page_size with
  | none =>
    .abort 400 "page_size must be a positive integer no greater than 1000"
  | some ps =>
    let benchmark_results :=
      (db.filter fun r => filters.all fun f => f r).take ps.toNat
    let next_page_cursor : Option String :=
      if benchmark_results.length = ps.toNat then
        benchmark_results.getLast?.map fun r => r.id
      else none
    .ok (benchmark_results, next_page_cursor)

/-- Default (empty) listing arguments. -/
def emptyListArgs : ListArgs := ⟨none, none, none, none, none, none⟩

/-- The listing arguments of the 250-row pagination scenario: a `run_id`
filter, page size 100, and a varying cursor. -/
def pagingArgs (cursor : Option String) : ListArgs :=
  ⟨some "r", none, cursor, some 100, none, none⟩

/-- The store and collaborator services the compare endpoints consume
(entity fetch-by-id, fetch-all-for-run, and the external lookback z-score
annotator). -/
structure CompareEnv where
  resultById : String → Option BenchmarkResult
  resultsByRunId : String → List BenchmarkResult
  zscore : BenchmarkResult → String → Option PFloat

/-- The z-score enrichment step of both `_get` implementations
(`compare.py` lines 388-398 and 540-549): with a baseline commit the
contender's transient z-score is assigned by the external annotator; with
no baseline commit it is set to `None`. -/
def applyZScore (env : CompareEnv) (baselineCommit : Option String)
    (r : BenchmarkResult) : BenchmarkResult :=
  match baselineCommit with
  | some cm => { r with z_score := env.zscore r cm }
  | none => { r with z_score := none }

/-- The message carried by `UnmatchingUnitsError` (`compare.py`
lines 172-176), interpolating both ids and both units. -/
def unmatchingUnitsMessage (e : UnmatchingUnitsError) : String :=
  "Benchmark units do not match. Benchmark result with ID " ++
    e.baseline_id ++ " has unit " ++ e.baseline_unit.getD "" ++
    " and benchmark result with ID " ++ e.contender_id ++ " has unit " ++
    e.contender_unit.getD ""

/-- Embeds `CompareBenchmarkResultsAPI._get` (`compare.py` lines 382-417), with
display-name enrichment and JSON serialization elided: parse the token,
fetch both results (404 when absent), enrich the contender's z-score,
construct the comparator; a unit mismatch aborts with 400, an `assert`
failure propagates (500). -/
def CompareBenchmarkResultsAPI_inner (env : CompareEnv) (compare_ids : String)
    (threshold threshold_z : Option ℚ) :
    Except (ℕ × String) BenchmarkResultComparator :=
  match _parse_two_ids_or_abort compare_ids with
  | .error e => .error e
  | .ok (baseline_result_id, contender_result_id) =>
  match env.resultById baseline_result_id with
  | none =>
    .error (404, "no benchmark result found with ID: " ++ baseline_result_id)
  | some baseline_result =>
    match env.resultById contender_result_id with
    | none =>
      .error (404, "no benchmark result found with ID: " ++ contender_result_id)
    | some contender_result0 =>
      let contender_result :=
        applyZScore env baseline_result.commit contender_result0
      match BenchmarkResultComparator.make (some baseline_result)
          (some contender_result) threshold threshold_z with
      | .error (.unmatchingUnits e) => .error (400, unmatchingUnitsMessage e)
      | .error .assertionError => .error (500, "AssertionError")
      | .ok comparator => .ok comparator

/-- The comparator-collection loop of `CompareRunsAPI._get` (lines 561-577):
pairs whose construction raises `UnmatchingUnitsError` are skipped; an
`assert` failure propagates. -/
def collectComparators
    (pairs : List (Option BenchmarkResult × Option BenchmarkResult))
    (threshold threshold_z : Option ℚ) :
    Except Unit (List BenchmarkResultComparator) :=
  match pairs with
  | [] => .ok []
  | (b, c) :: rest =>
    match BenchmarkResultComparator.make b c threshold threshold_z with
    | .ok comp =>
      (collectComparators rest threshold threshold_z).map fun l => comp :: l
    | .error (.unmatchingUnits _) => collectComparators rest threshold threshold_z
    | .error .assertionError => .error ()

/-- Embeds `CompareRunsAPI._get` (`compare.py` lines 530-578), with display-name
enrichment and JSON serialization elided. -/
def CompareRunsAPI_inner (env : CompareEnv) (compare_ids : String)
    (threshold threshold_z : Option ℚ) :
    Except (ℕ × String) (List BenchmarkResultComparator) :=
  match _parse_two_ids_or_abort compare_ids with
  | .error e => .error e
  | .ok (baseline_run_id, contender_run_id) =>
  match env.resultsByRunId baseline_run_id with
  | [] =>
    .error (404, "no benchmark results found for run ID: " ++ baseline_run_id)
  | b0 :: brest =>
    match env.resultsByRunId contender_run_id with
    | [] =>
      .error (404, "no benchmark results found for run ID: " ++ contender_run_id)
    | c0 :: crest =>
      let baseline_results := b0 :: brest
      let contender_results := (c0 :: crest).map (applyZScore env b0.commit)
      match collectComparators
          (_join_results baseline_results contender_results)
          threshold threshold_z with
      | .error _ => .error (500, "AssertionError")
      | .ok comparators => .ok comparators

/-- Embeds `threading.BoundedSemaphore.acquire(timeout=...)` under the modelling
assumption that no release happens during the wait: with a free slot the
acquisition succeeds immediately; with none the timeout elapses and it
fails. -/
def semTryAcquire (slots : ℕ) : Bool × ℕ :=
  if 0 < slots then (true, slots - 1) else (false, slots)

/-- Embeds `threading.BoundedSemaphore.release()`. -/
def semRelease (slots : ℕ) : ℕ := slots + 1

/-- The `with _sem_acquire(...)` wrapper used by both `get` methods
(`compare.py` lines 40-51, 373-380, 521-528): on acquisition run the guarded
`_get` — releasing the slot whether it returns or raises — else immediately
return the 429 retry-later response. -/
def compareGetOuter {β : Type} (slots : ℕ) (inner : Except (ℕ × String) β) :
    ApiResult β × ℕ :=
  let acq := semTryAcquire slots
  if acq.1 then
    (match inner with
      | .ok b => .ok b
      | .error (code, msg) => .abort code msg,
      semRelease acq.2)
  else
    (.retryLater "doing other /compare work, retry soon", acq.2)

/-- Embeds `CompareBenchmarkResultsAPI.get`: the admission gate around `_get`. -/
def CompareBenchmarkResultsAPI_get (env : CompareEnv) (slots : ℕ)
    (compare_ids : String) (threshold threshold_z : Option ℚ) :
    ApiResult BenchmarkResultComparator × ℕ :=
  compareGetOuter slots
    (CompareBenchmarkResultsAPI_inner env compare_ids threshold threshold_z)

/-- Embeds `CompareRunsAPI.get`: the admission gate around `_get`. -/
def CompareRunsAPI_get (env : CompareEnv) (slots : ℕ)
    (compare_ids : String) (threshold threshold_z : Option ℚ) :
    ApiResult (List BenchmarkResultComparator) × ℕ :=
  compareGetOuter slots
    (CompareRunsAPI_inner env compare_ids threshold threshold_z)

/-- How an uncaught abort surfaces once the gate released the slot. -/
def routeResponse {β : Type} : Except (ℕ × String) β → ApiResult β
  | .ok b => .ok b
  | .error (code, msg) => .abort code msg

/-- Example contender whose unit differs from the baseline's. -/
def exampleMismatchContender : BenchmarkResult :=
  ⟨"id-mis", some "i", PFloat.val 90, false, none, "fp0", none, "run-mis"⟩

/-- A concrete store holding the example baseline and the unit-mismatched
contender. -/
def exampleEnv : CompareEnv :=
  ⟨fun i =>
    if i = "id-base" then some exampleBaseline100
    else if i = "id-mis" then some exampleMismatchContender
    else none,
  fun rid =>
    if rid = "run-base" then [exampleBaseline100]
    else if rid = "run-mis" then [exampleMismatchContender]
    else [],
  fun _ _ => none⟩

set_option maxHeartbeats 1000000

/-- Inversion for a successful comparator construction: the recorded fields
are determined by the constructor arguments. -/
theorem make_ok_inv {b c : Option BenchmarkResult} {t tz : Option ℚ}
    {comp : BenchmarkResultComparator}
    (h : BenchmarkResultComparator.make b c t tz = Except.ok comp) :
    comp.do_comparison = computeDoComparison b c ∧ comp.baseline = b ∧
      comp.contender = c ∧
      comp.threshold = t.getD DEFAULT_PAIRWISE_PERCENT_THRESHOLD ∧
      comp.threshold_z = tz.getD DEFAULT_Z_SCORE_THRESHOLD := by
  rcases b with _ | br <;> rcases c with _ | cr <;>
    simp only [BenchmarkResultComparator.make] at h <;>
    split at h <;>
    (try split at h) <;> (try split at h) <;> (try split at h) <;>
    simp_all <;> (rcases h with rfl | h) <;> simp_all

/-- Shows `computeDoComparison` is true exactly when both sides are present and
neither is marked failed. -/
theorem computeDoComparison_iff (b c : Option BenchmarkResult) :
    computeDoComparison b c = true ↔
      b.isSome = true ∧ c.isSome = true ∧
        (∀ x, b = some x → x.is_failed = false) ∧
        (∀ x, c = some x → x.is_failed = false) := by
  rcases b with _ | br
  · simp [computeDoComparison]
  rcases c with _ | cr
  · simp [computeDoComparison]
  cases hbf : br.is_failed <;> cases hcf : cr.is_failed <;>
    simp_all [computeDoComparison]

/-- C1: for every pair of inputs to the comparator, `do_comparison` is true
iff both sides are present and neither is marked failed; and whenever
`do_comparison` is false, the pairwise analysis and the lookback z-score
analysis are both null. -/
theorem C1_do_comparison_iff_and_null_analyses
    (baseline contender : Option BenchmarkResult) (t tz : Option ℚ)
    (lib : String → Bool) (comp : BenchmarkResultComparator)
    (h : BenchmarkResultComparator.make baseline contender t tz = Except.ok comp) :
    (comp.do_comparison = true ↔
      baseline.isSome = true ∧ contender.isSome = true ∧
        (∀ x, baseline = some x → x.is_failed = false) ∧
        (∀ x, contender = some x → x.is_failed = false)) ∧
    (comp.do_comparison = false →
      comp.pairwise_analysis lib = none ∧
        comp.lookback_z_score_analysis = none) := by
  obtain ⟨hd, -, -, -, -⟩ := make_ok_inv h
  constructor
  · rw [hd]
    exact computeDoComparison_iff baseline contender
  · intro hfalse
    constructor
    · simp [BenchmarkResultComparator.pairwise_analysis, hfalse]
    · simp [BenchmarkResultComparator.lookback_z_score_analysis, hfalse]

/-- Witness for C1 at a concrete input (both sides absent). -/
theorem C1_do_comparison_iff_and_null_analyses_witness :
    BenchmarkResultComparator.make none none none none =
      Except.ok exampleComparatorNone ∧
    (exampleComparatorNone.do_comparison = false →
      exampleComparatorNone.pairwise_analysis (fun _ => true) = none ∧
        exampleComparatorNone.lookback_z_score_analysis = none) :=
  ⟨rfl,
    (C1_do_comparison_iff_and_null_analyses none none none none (fun _ => true)
      exampleComparatorNone rfl).2⟩

/-- Evaluation of the 4-significant-figure rounding at 10. -/
theorem roundSigFigs_four_ten : roundSigFigs 4 10 = 10 := by
  have h1 : Nat.log 10 10 = 1 :=
    Nat.log_eq_of_pow_le_of_lt_pow (by norm_num) (by norm_num)
  have h2 : Nat.log 10 1 = 0 := by simp
  norm_num [roundSigFigs, ratLog10floor, h1, h2, round_eq]

/-- C2: under `do_comparison`, the pairwise analysis is null iff the
baseline value is exactly 0; for real (non-NaN) values it reports
`percent_change = 100 * (contender - baseline) / |baseline|`, negated when
less-is-better, rounded to 4 significant figures, with both indicator bits
thresholded on the unrounded signed value; NaN inputs yield a null
`percent_change` and false indicators; and the concrete example
(baseline 100, contender 90, less-is-better, threshold 5.0) yields
`percent_change = 10.0`, no regression, improvement indicated. -/
theorem C2_pairwise_analysis_spec (lib : String → Bool)
    (comp : BenchmarkResultComparator) (br ct : BenchmarkResult)
    (hdo : comp.do_comparison = true)
    (hb : comp.baseline = some br) (hc : comp.contender = some ct) :
    (comp.pairwise_analysis lib = none ↔ br.svs = PFloat.val 0) ∧
    (∀ qb qc : ℚ, br.svs = PFloat.val qb → ct.svs = PFloat.val qc → qb ≠ 0 →
      comp.pairwise_analysis lib =
        some ⟨some (roundSigFigs 4
            ((if (comp.less_is_better lib).getD false then -1 else 1) *
              (100 * (qc - qb) / |qb|))),
          comp.threshold,
          decide (-((if (comp.less_is_better lib).getD false then -1 else 1) *
              (100 * (qc - qb) / |qb|)) > comp.threshold),
          decide ((if (comp.less_is_better lib).getD false then -1 else 1) *
              (100 * (qc - qb) / |qb|) > comp.threshold)⟩) ∧
    ((br.svs = PFloat.nan ∨ ct.svs = PFloat.nan) → br.svs ≠ PFloat.val 0 →
      ∃ pa, comp.pairwise_analysis lib = some pa ∧ pa.percent_change = none ∧
        pa.regression_indicated = false ∧ pa.improvement_indicated = false) ∧
    (BenchmarkResultComparator.pairwise_analysis (fun _ => true)
        exampleComparator10090 =
      some ⟨some 10, 5, false, true⟩) := by
  refine ⟨?_, ?_, ?_, ?_⟩
  · simp only [BenchmarkResultComparator.pairwise_analysis, hdo, hb, hc,
      Bool.not_true, Bool.false_eq_true, if_false]
    rcases hsvs : br.svs with _ | qb
    · simp [PFloat.eqZero]
    · by_cases hq : qb = 0 <;> simp [PFloat.eqZero, hq]
  · intro qb qc hqb hqc hqb0
    simp only [BenchmarkResultComparator.pairwise_analysis, hdo, hb, hc,
      Bool.not_true, Bool.false_eq_true, if_false, hqb, hqc]
    have habs : ¬(|qb| = 0) := by simpa [abs_eq_zero] using hqb0
    cases hlib : (comp.less_is_better lib).getD false <;>
      · simp only [PFloat.eqZero, PFloat.sub, PFloat.pabs, PFloat.pdiv,
          PFloat.pneg, PFloat.mul100, PFloat.gtQ, _round, hqb0, habs,
          decide_eq_true_eq, if_false, Bool.false_eq_true,
          if_true, hlib, Option.some.injEq,
          PairwiseAnalysis.mk.injEq]
        norm_num
        have harg : (qc - qb) / |qb| * 100 = 100 * (qc - qb) / |qb| := by
          ring
        constructor
        · rw [harg]
        constructor
        · rw [harg]
        · rw [harg]
  · intro hnan hnotzero
    simp only [BenchmarkResultComparator.pairwise_analysis, hdo, hb, hc,
      Bool.not_true, Bool.false_eq_true, if_false]
    have heqz : PFloat.eqZero br.svs = false := by
      rcases hsvs : br.svs with _ | qb
      · simp [PFloat.eqZero]
      · simp only [PFloat.eqZero, decide_eq_false_iff_not]
        intro h0
        exact hnotzero (by rw [hsvs, h0])
    refine ⟨⟨none, comp.threshold, false, false⟩, ?_, rfl, rfl, rfl⟩
    rcases hnan with hnb | hnc
    · rcases (comp.less_is_better lib).getD false <;>
        simp [heqz, hnb, PFloat.eqZero, PFloat.sub, PFloat.pabs, PFloat.pdiv,
          PFloat.pneg, PFloat.mul100, PFloat.gtQ, _round]
    · rcases hbs : br.svs with _ | qb <;>
        rcases (comp.less_is_better lib).getD false <;>
          simp [heqz, hnc, hbs, PFloat.eqZero, PFloat.sub, PFloat.pabs,
            PFloat.pdiv, PFloat.pneg, PFloat.mul100, PFloat.gtQ, _round] <;>
          (intro h0; exact hnotzero (by rw [hbs, h0]))
  · simp only [BenchmarkResultComparator.pairwise_analysis,
      exampleComparator10090, exampleBaseline100, exampleContender90,
      BenchmarkResultComparator.less_is_better]
    norm_num [PFloat.eqZero, PFloat.sub, PFloat.pabs, PFloat.pdiv,
      PFloat.pneg, PFloat.mul100, PFloat.gtQ, _round,
      DEFAULT_PAIRWISE_PERCENT_THRESHOLD]
    exact roundSigFigs_four_ten

/-- Witness for C2 at the concrete example input. -/
theorem C2_pairwise_analysis_spec_witness :
    (exampleComparator10090.do_comparison = true ∧
      exampleComparator10090.baseline = some exampleBaseline100 ∧
      exampleComparator10090.contender = some exampleContender90) ∧
    BenchmarkResultComparator.pairwise_analysis (fun _ => true)
        exampleComparator10090 = some ⟨some 10, 5, false, true⟩ :=
  ⟨⟨rfl, rfl, rfl⟩,
    (C2_pairwise_analysis_spec (fun _ => true) exampleComparator10090
      exampleBaseline100 exampleContender90 rfl rfl rfl).2.2.2⟩

/-- C3: the lookback z-score analysis is null unless `do_comparison` holds
and the contender has a usable (present, non-NaN) z-score; when non-null it
thresholds the signed z-score and reports it rounded to 4 significant
figures. -/
theorem C3_lookback_z_score_analysis_spec
    (comp : BenchmarkResultComparator) (br ct : BenchmarkResult)
    (hb : comp.baseline = some br) (hc : comp.contender = some ct) :
    (comp.do_comparison = false → comp.lookback_z_score_analysis = none) ∧
    (ct.z_score = none → comp.lookback_z_score_analysis = none) ∧
    (ct.z_score = some PFloat.nan → comp.lookback_z_score_analysis = none) ∧
    (∀ zq : ℚ, comp.do_comparison = true →
      ct.z_score = some (PFloat.val zq) →
      comp.lookback_z_score_analysis =
        some ⟨comp.threshold_z, some (roundSigFigs 4 zq),
          decide (-zq > comp.threshold_z),
          decide (zq > comp.threshold_z)⟩) := by
  refine ⟨?_, ?_, ?_, ?_⟩
  · intro hf
    simp [BenchmarkResultComparator.lookback_z_score_analysis, hf]
  · intro hz
    cases hdo : comp.do_comparison <;>
      simp [BenchmarkResultComparator.lookback_z_score_analysis, hdo, hb, hc,
        hz]
  · intro hz
    cases hdo : comp.do_comparison <;>
      simp [BenchmarkResultComparator.lookback_z_score_analysis, hdo, hb, hc,
        hz, PFloat.isNaN]
  · intro zq hdo hz
    simp [BenchmarkResultComparator.lookback_z_score_analysis, hdo, hb, hc,
      hz, PFloat.isNaN, PFloat.pneg, PFloat.gtQ, _round, gt_iff_lt]

/-- Witness for C3 at a concrete input (contender z-score 0). -/
theorem C3_lookback_z_score_analysis_spec_witness :
    (exampleComparatorZ.baseline = some exampleBaseline100 ∧
      exampleComparatorZ.contender = some exampleContenderZ ∧
      exampleComparatorZ.do_comparison = true ∧
      exampleContenderZ.z_score = some (PFloat.val 0)) ∧
    exampleComparatorZ.lookback_z_score_analysis =
      some ⟨5, some (roundSigFigs 4 0), false, false⟩ := by
  refine ⟨⟨rfl, rfl, rfl, rfl⟩, ?_⟩
  have h := (C3_lookback_z_score_analysis_spec exampleComparatorZ
    exampleBaseline100 exampleContenderZ rfl rfl).2.2.2 0 rfl rfl
  rw [h]
  norm_num [exampleComparatorZ, DEFAULT_Z_SCORE_THRESHOLD]

theorem length_orNoneList (l : List BenchmarkResult) :
    (orNoneList l).length = max 1 l.length := by
  cases l <;> simp [orNoneList]

theorem mem_orNoneList {x : Option BenchmarkResult}
    {l : List BenchmarkResult} :
    x ∈ orNoneList l ↔ (l = [] ∧ x = none) ∨ ∃ r ∈ l, x = some r := by
  cases l
  · simp [orNoneList]
  · simp [orNoneList, eq_comm]
    aesop

theorem length_groupPairs (bs cs : List BenchmarkResult) (fing : String) :
    (groupPairs bs cs fing).length =
      max 1 (bs.countP fun r => decide (r.history_fingerprint = fing)) *
        max 1 (cs.countP fun r => decide (r.history_fingerprint = fing)) := by
  have h : groupPairs bs cs fing =
      (orNoneList (bs.filter fun r => decide (r.history_fingerprint = fing))) ×ˢ
        (orNoneList (cs.filter fun r => decide (r.history_fingerprint = fing))) := rfl
  rw [h, List.length_product, length_orNoneList, length_orNoneList,
    List.countP_eq_length_filter, List.countP_eq_length_filter]

theorem mem_groupPairs {p : Option BenchmarkResult × Option BenchmarkResult}
    {bs cs : List BenchmarkResult} {fing : String} :
    p ∈ groupPairs bs cs fing ↔
      p.1 ∈ orNoneList (bs.filter fun r => decide (r.history_fingerprint = fing)) ∧
      p.2 ∈ orNoneList (cs.filter fun r => decide (r.history_fingerprint = fing)) := by
  rcases p with ⟨b, c⟩
  simp only [groupPairs, List.mem_flatMap, List.mem_map]
  constructor
  · rintro ⟨b', hb', c', hc', h⟩
    simp only [Prod.mk.injEq] at h
    obtain ⟨rfl, rfl⟩ := h
    exact ⟨hb', hc'⟩
  · rintro ⟨hb, hc⟩
    exact ⟨b, hb, c, hc, rfl⟩

/-- Every pair emitted for a fingerprint that is present on at least one
side carries exactly that fingerprint. -/
theorem pairFingerprint_of_mem_groupPairs
    {p : Option BenchmarkResult × Option BenchmarkResult}
    {bs cs : List BenchmarkResult} {fing : String}
    (hf : fing ∈ joinFingerprints bs cs) (hp : p ∈ groupPairs bs cs fing) :
    pairFingerprint p = some fing := by
  rcases p with ⟨b, c⟩
  obtain ⟨hb, hc⟩ := mem_groupPairs.mp hp
  rcases mem_orNoneList.mp hb with ⟨hbe, rfl⟩ | ⟨rb, hrb, rfl⟩
  · rcases mem_orNoneList.mp hc with ⟨hce, rfl⟩ | ⟨rc, hrc, rfl⟩
    · exfalso
      have : (∃ r ∈ bs, r.history_fingerprint = fing) ∨
          ∃ r ∈ cs, r.history_fingerprint = fing := by
        have := List.mem_dedup.mp hf
        simpa [eq_comm] using this
      rcases this with ⟨r, hr, hfp⟩ | ⟨r, hr, hfp⟩
      · exact absurd hbe (List.ne_nil_of_mem
          (List.mem_filter.mpr ⟨hr, by simp [hfp]⟩))
      · exact absurd hce (List.ne_nil_of_mem
          (List.mem_filter.mpr ⟨hr, by simp [hfp]⟩))
    · have := (List.mem_filter.mp hrc).2
      simp only [decide_eq_true_eq] at this
      simp [pairFingerprint, this]
  · have := (List.mem_filter.mp hrb).2
    simp only [decide_eq_true_eq] at this
    simp [pairFingerprint, this]

theorem sum_map_add_nat {α : Type} (L : List α) (g h : α → ℕ) :
    (L.map fun x => g x + h x).sum = (L.map g).sum + (L.map h).sum := by
  induction L with
  | nil => simp
  | cons a t ih => simp [ih]; omega

theorem sum_map_ite_eq {α : Type} [DecidableEq α] (L : List α) (hL : L.Nodup)
    (a : α) (v : α → ℕ) :
    (L.map fun x => if x = a then v x else 0).sum =
      if a ∈ L then v a else 0 := by
  induction L with
  | nil => simp
  | cons b t ih =>
    obtain ⟨hb, ht⟩ := List.nodup_cons.mp hL
    by_cases hba : b = a
    · subst hba
      simp [ih ht, hb]
    · simp [hba, ih ht, Ne.symm hba]

/-- Per-fingerprint pair count of the join: a fingerprint present on either
side contributes the product of the two (placeholder-padded) group sizes;
any other fingerprint contributes nothing. -/
theorem countP_join_fingerprint (bs cs : List BenchmarkResult) (f : String) :
    ((_join_results bs cs).countP fun p => decide (pairFingerprint p = some f)) =
      if f ∈ joinFingerprints bs cs then
        max 1 (bs.countP fun r => decide (r.history_fingerprint = f)) *
          max 1 (cs.countP fun r => decide (r.history_fingerprint = f))
      else 0 := by
  rw [List.countP_eq_length_filter, _join_results, List.filter_flatMap]
  rw [List.length_flatMap]
  have hgroups : ∀ f' ∈ joinFingerprints bs cs,
      ((groupPairs bs cs f').filter fun p =>
          decide (pairFingerprint p = some f)).length =
        if f' = f then (groupPairs bs cs f).length else 0 := by
    intro f' hf'
    by_cases hff : f' = f
    · subst hff
      simp only [if_true]
      rw [List.filter_eq_self.mpr]
      intro p hp
      simp [pairFingerprint_of_mem_groupPairs hf' hp]
    · simp only [hff, if_false]
      rw [List.filter_eq_nil_iff.mpr, List.length_nil]
      intro p hp
      have := pairFingerprint_of_mem_groupPairs hf' hp
      simp [this, hff]
  simp only [Function.comp_def]
  rw [List.map_congr_left hgroups]
  rw [sum_map_ite_eq (joinFingerprints bs cs) (List.nodup_dedup _) f
    (fun _ => (groupPairs bs cs f).length)]
  by_cases hf : f ∈ joinFingerprints bs cs <;>
    simp [hf, length_groupPairs]

theorem sum_map_ite_one {α : Type} [DecidableEq α] (L : List α)
    (hL : L.Nodup) (a : α) (ha : a ∈ L) :
    (L.map fun x => if a = x then 1 else 0).sum = 1 := by
  induction L with
  | nil => simp at ha
  | cons b t ih =>
    obtain ⟨hb, ht⟩ := List.nodup_cons.mp hL
    rcases List.mem_cons.mp ha with rfl | hat
    · have hz : (t.map fun x => if a = x then 1 else 0).sum = 0 := by
        rw [List.sum_eq_zero]
        intro x hx
        obtain ⟨y, hy, rfl⟩ := List.mem_map.mp hx
        have : a ≠ y := by rintro rfl; exact hb hy
        simp [this]
      simp [hz]
    · have hab : a ≠ b := by rintro rfl; exact hb hat
      simp [hab, ih ht hat]

/-- Summing, over a duplicate-free list of fingerprints covering a result
list, the number of results carrying each fingerprint gives the length of
the result list. -/
theorem sum_countP_fingerprints (bs : List BenchmarkResult) (L : List String)
    (hL : L.Nodup) (hall : ∀ r ∈ bs, r.history_fingerprint ∈ L) :
    (L.map fun f =>
        bs.countP fun r => decide (r.history_fingerprint = f)).sum =
      bs.length := by
  induction bs with
  | nil => simp
  | cons r t ih =>
    have hallt : ∀ x ∈ t, x.history_fingerprint ∈ L := fun x hx =>
      hall x (List.mem_cons_of_mem r hx)
    have hstep : ∀ f ∈ L,
        ((r :: t).countP fun x => decide (x.history_fingerprint = f)) =
          (t.countP fun x => decide (x.history_fingerprint = f)) +
            (if r.history_fingerprint = f then 1 else 0) := by
      intro f _
      rw [List.countP_cons]
      by_cases hrf : r.history_fingerprint = f <;> simp [hrf]
    rw [List.map_congr_left hstep, sum_map_add_nat, ih hallt,
      sum_map_ite_one L hL r.history_fingerprint
        (hall r (List.mem_cons_self r t))]
    rw [List.length_cons]

/-- A fingerprint is in the join iteration set iff some input result on
either side carries it. -/
theorem mem_joinFingerprints {f : String} {bs cs : List BenchmarkResult} :
    f ∈ joinFingerprints bs cs ↔
      (∃ r ∈ bs, r.history_fingerprint = f) ∨
        ∃ r ∈ cs, r.history_fingerprint = f := by
  simp [joinFingerprints, eq_comm]

/-- C5: the run join emits, for every fingerprint present on either side,
the cartesian product of that fingerprint's baseline members (with a single
absent placeholder for an empty side) and contender members; hence disjoint
sides of sizes m and n yield exactly m + n pairs each with one side absent,
and a fingerprint with k entries on each side yields exactly k * k pairs. -/
theorem C5_join_results_counts (bs cs : List BenchmarkResult) :
    (∀ f : String,
      ((_join_results bs cs).countP fun p =>
          decide (pairFingerprint p = some f)) =
        if f ∈ joinFingerprints bs cs then
          max 1 (bs.countP fun r => decide (r.history_fingerprint = f)) *
            max 1 (cs.countP fun r => decide (r.history_fingerprint = f))
        else 0) ∧
    ((∀ rb ∈ bs, ∀ rc ∈ cs,
        rb.history_fingerprint ≠ rc.history_fingerprint) →
      (_join_results bs cs).length = bs.length + cs.length ∧
        ∀ p ∈ _join_results bs cs, p.1 = none ∨ p.2 = none) ∧
    (∀ (f : String) (k : ℕ),
      (bs.countP fun r => decide (r.history_fingerprint = f)) = k →
      (cs.countP fun r => decide (r.history_fingerprint = f)) = k →
      ((_join_results bs cs).countP fun p =>
          decide (pairFingerprint p = some f)) = k * k) := by
  refine ⟨countP_join_fingerprint bs cs, ?_, ?_⟩
  · intro hdisj
    constructor
    · rw [_join_results, List.length_flatMap]
      simp only [Function.comp_def]
      have hterm : ∀ f ∈ joinFingerprints bs cs,
          (groupPairs bs cs f).length =
            (bs.countP fun r => decide (r.history_fingerprint = f)) +
              (cs.countP fun r => decide (r.history_fingerprint = f)) := by
        intro f hf
        rw [length_groupPairs]
        rcases mem_joinFingerprints.mp hf with ⟨rb, hrb, hfp⟩ | ⟨rc, hrc, hfp⟩
        · have hbpos :
              0 < bs.countP fun r => decide (r.history_fingerprint = f) :=
            List.countP_pos_iff.mpr ⟨rb, hrb, by simp [hfp]⟩
          have hc0 :
              (cs.countP fun r => decide (r.history_fingerprint = f)) = 0 := by
            rw [List.countP_eq_zero]
            intro rc hrc
            simp only [decide_eq_true_eq]
            intro hfc
            exact hdisj rb hrb rc hrc (by rw [hfp, hfc])
          rw [hc0,
            Nat.max_eq_right (show 1 ≤ bs.countP fun r =>
              decide (r.history_fingerprint = f) by omega)]
          simp
        · have hcpos :
              0 < cs.countP fun r => decide (r.history_fingerprint = f) :=
            List.countP_pos_iff.mpr ⟨rc, hrc, by simp [hfp]⟩
          have hb0 :
              (bs.countP fun r => decide (r.history_fingerprint = f)) = 0 := by
            rw [List.countP_eq_zero]
            intro rb hrb
            simp only [decide_eq_true_eq]
            intro hfb
            exact hdisj rb hrb rc hrc (by rw [hfp, hfb])
          rw [hb0,
            Nat.max_eq_right (show 1 ≤ cs.countP fun r =>
              decide (r.history_fingerprint = f) by omega)]
          simp
      rw [List.map_congr_left hterm, sum_map_add_nat,
        sum_countP_fingerprints bs (joinFingerprints bs cs)
          (List.nodup_dedup _)
          (fun r hr => mem_joinFingerprints.mpr (Or.inl ⟨r, hr, rfl⟩)),
        sum_countP_fingerprints cs (joinFingerprints bs cs)
          (List.nodup_dedup _)
          (fun r hr => mem_joinFingerprints.mpr (Or.inr ⟨r, hr, rfl⟩))]
    · intro p hp
      obtain ⟨f, hf, hpg⟩ := List.mem_flatMap.mp hp
      obtain ⟨h1, h2⟩ := mem_groupPairs.mp hpg
      rcases mem_orNoneList.mp h1 with ⟨-, hb⟩ | ⟨rb, hrb, hb⟩
      · exact Or.inl hb
      rcases mem_orNoneList.mp h2 with ⟨-, hc⟩ | ⟨rc, hrc, hc⟩
      · exact Or.inr hc
      exfalso
      obtain ⟨hrb', hfb⟩ := List.mem_filter.mp hrb
      obtain ⟨hrc', hfc⟩ := List.mem_filter.mp hrc
      simp only [decide_eq_true_eq] at hfb hfc
      exact hdisj rb hrb' rc hrc' (by rw [hfb, hfc])
  · intro f k hbk hck
    rw [countP_join_fingerprint]
    by_cases hk : k = 0
    · subst hk
      have hf : f ∉ joinFingerprints bs cs := by
        intro hf
        rcases mem_joinFingerprints.mp hf with ⟨r, hr, hfp⟩ | ⟨r, hr, hfp⟩
        · have : 0 < bs.countP fun r => decide (r.history_fingerprint = f) :=
            List.countP_pos_iff.mpr ⟨r, hr, by simp [hfp]⟩
          omega
        · have : 0 < cs.countP fun r => decide (r.history_fingerprint = f) :=
            List.countP_pos_iff.mpr ⟨r, hr, by simp [hfp]⟩
          omega
      simp [hf]
    · have hf : f ∈ joinFingerprints bs cs := by
        have hpos : 0 < bs.countP fun r => decide (r.history_fingerprint = f) := by
          omega
        obtain ⟨r, hr, hfp⟩ := List.countP_pos_iff.mp hpos
        simp only [decide_eq_true_eq] at hfp
        exact mem_joinFingerprints.mpr (Or.inl ⟨r, hr, hfp⟩)
      rw [if_pos hf, hbk, hck, Nat.max_eq_right (by omega)]

/-- C10: the join never emits a pair with both sides absent. -/
theorem C10_no_pair_both_absent (bs cs : List BenchmarkResult) :
    ∀ p ∈ _join_results bs cs, ¬(p.1 = none ∧ p.2 = none) := by
  rintro p hp ⟨h1, h2⟩
  obtain ⟨f, hf, hpg⟩ := List.mem_flatMap.mp hp
  have hfing := pairFingerprint_of_mem_groupPairs hf hpg
  rcases p with ⟨b, c⟩
  simp only at h1 h2
  subst h1
  subst h2
  simp [pairFingerprint] at hfing

/-- Witness for C5: joining two singleton lists with disjoint fingerprints
yields exactly 1 + 1 pairs, each with one side absent. -/
theorem C5_join_results_counts_witness :
    (∀ rb ∈ [exampleBaseline100], ∀ rc ∈ [exampleContenderFp1],
      rb.history_fingerprint ≠ rc.history_fingerprint) ∧
    (_join_results [exampleBaseline100] [exampleContenderFp1]).length = 2 ∧
    ∀ p ∈ _join_results [exampleBaseline100] [exampleContenderFp1],
      p.1 = none ∨ p.2 = none := by
  have hd : ∀ rb ∈ [exampleBaseline100], ∀ rc ∈ [exampleContenderFp1],
      rb.history_fingerprint ≠ rc.history_fingerprint := by decide
  have h := (C5_join_results_counts [exampleBaseline100]
    [exampleContenderFp1]).2.1 hd
  exact ⟨hd, by simpa using h.1, h.2⟩

/-- Witness for C10 at a concrete joined pair. -/
theorem C10_no_pair_both_absent_witness :
    ((some exampleBaseline100, (none : Option BenchmarkResult)) ∈
      _join_results [exampleBaseline100] [exampleContenderFp1]) ∧
    ¬((some exampleBaseline100, (none : Option BenchmarkResult)).1 = none ∧
      (some exampleBaseline100, (none : Option BenchmarkResult)).2 = none) := by
  have hmem : (some exampleBaseline100, (none : Option BenchmarkResult)) ∈
      _join_results [exampleBaseline100] [exampleContenderFp1] :=
    List.mem_cons_self _ _
  exact ⟨hmem,
    C10_no_pair_both_absent [exampleBaseline100] [exampleContenderFp1] _ hmem⟩

theorem splitOnFirst_some_iff {sep : List Char} (hsep : sep ≠ []) :
    ∀ x l r : List Char,
      splitOnFirst sep x = some (l, r) ↔
        (x = l ++ sep ++ r ∧ ∀ j < l.length, ¬ sep.isPrefixOf (x.drop j))
  | [], l, r => by
    rw [splitOnFirst]
    simp only [List.isEmpty_iff, if_neg hsep]
    constructor
    · intro h
      exact absurd h (by simp)
    · rintro ⟨hx, -⟩
      exact absurd hx (by simp [hsep])
  | c :: rest, l, r => by
    rw [splitOnFirst]
    by_cases hp : sep.isPrefixOf (c :: rest)
    · rw [if_pos hp]
      have hpre : sep ++ (c :: rest).drop sep.length = c :: rest := by
        obtain ⟨t, ht⟩ := List.isPrefixOf_iff_prefix.mp hp
        conv_lhs => rw [← ht]
        conv_rhs => rw [← ht]
        rw [List.drop_left]
      constructor
      · intro h
        simp only [Option.some.injEq, Prod.mk.injEq] at h
        obtain ⟨h1, h2⟩ := h
        subst h1
        subst h2
        refine ⟨by simpa using hpre.symm, ?_⟩
        intro j hj
        simp at hj
      · rintro ⟨hx, hj⟩
        rcases l with _ | ⟨a, l'⟩
        · simp only [List.nil_append] at hx
          have hr : r = (c :: rest).drop sep.length := by
            rw [hx, List.drop_left]
          rw [hr]
        · exact absurd hp (hj 0 (by simp))
    · rw [if_neg hp]
      constructor
      · intro h
        obtain ⟨⟨l', r'⟩, hrec, heq⟩ := Option.map_eq_some'.mp h
        simp only [Prod.mk.injEq] at heq
        obtain ⟨h1, h2⟩ := heq
        subst h1
        subst h2
        obtain ⟨hx, hjs⟩ := (splitOnFirst_some_iff hsep rest l' r').mp hrec
        refine ⟨by simp [hx], ?_⟩
        intro j hj
        cases j with
        | zero => simpa using hp
        | succ j' =>
          simpa using hjs j' (by simpa using hj)
      · rintro ⟨hx, hjs⟩
        rcases l with _ | ⟨a, l'⟩
        · exfalso
          apply hp
          rw [List.nil_append] at hx
          rw [hx]
          exact List.isPrefixOf_iff_prefix.mpr ⟨r, rfl⟩
        · have hac : c = a ∧ rest = l' ++ (sep ++ r) := by
            simpa using hx
          obtain ⟨rfl, hrest⟩ := hac
          rw [Option.map_eq_some']
          refine ⟨(l', r), ?_, rfl⟩
          rw [splitOnFirst_some_iff hsep rest l' r]
          refine ⟨by simpa using hrest, ?_⟩
          intro j hj
          have := hjs (j + 1) (by simpa using hj)
          simpa using this

theorem splitOnFirst_none_iff {sep : List Char} (hsep : sep ≠ []) :
    ∀ x : List Char,
      splitOnFirst sep x = none ↔ ∀ j, ¬ sep.isPrefixOf (x.drop j)
  | [] => by
    rw [splitOnFirst]
    simp only [List.isEmpty_iff, if_neg hsep]
    simp [ List.isPrefixOf_iff_prefix, List.prefix_nil, hsep]
  | c :: rest => by
    rw [splitOnFirst]
    by_cases hp : sep.isPrefixOf (c :: rest)
    · rw [if_pos hp]
      constructor
      · intro h
        exact absurd h (by simp)
      · intro h
        exact absurd hp (by simpa using h 0)
    · rw [if_neg hp]
      rw [Option.map_eq_none', splitOnFirst_none_iff hsep rest]
      constructor
      · intro h j
        cases j with
        | zero => simpa using hp
        | succ j' => simpa using h j'
      · intro h j
        simpa using h (j + 1)

/-- C8: the identifier-pair parser succeeds exactly on tokens of the form
`<id>...<id>` with both sides non-empty, splitting on the first occurrence
of the separator; tokens without the separator, or with an empty side, each
abort with the corresponding 404 error. -/
theorem C8_parse_two_ids_spec (s : String) :
    (∀ l r : String, _parse_two_ids_or_abort s = .ok (l, r) ↔
        (s.toList = l.toList ++ idSeparator ++ r.toList ∧
          l.toList ≠ [] ∧ r.toList ≠ [] ∧
          ∀ j < l.toList.length,
            ¬ idSeparator.isPrefixOf (s.toList.drop j))) ∧
    ((∀ j, ¬ idSeparator.isPrefixOf (s.toList.drop j)) →
      _parse_two_ids_or_abort s =
        .error (404, "last URL path segment must be of pattern <id>...<id>")) ∧
    (_parse_two_ids_or_abort "abc" =
      .error (404, "last URL path segment must be of pattern <id>...<id>")) ∧
    (_parse_two_ids_or_abort "...x" = .error (404, "empty baseline ID")) ∧
    (_parse_two_ids_or_abort "x..." = .error (404, "empty contender ID")) := by
  have hsep : idSeparator ≠ [] := by simp [idSeparator]
  refine ⟨?_, ?_, rfl, rfl, rfl⟩
  · intro l r
    constructor
    · intro h
      rw [_parse_two_ids_or_abort] at h
      rcases hsp : splitOnFirst idSeparator s.toList with _ | ⟨l0, r0⟩
      · rw [hsp] at h
        exact absurd h (by simp)
      · rw [hsp] at h
        dsimp only at h
        by_cases hl0 : l0 = []
        · rw [if_pos hl0] at h
          exact absurd h (by simp)
        · rw [if_neg hl0] at h
          by_cases hr0 : r0 = []
          · rw [if_pos hr0] at h
            exact absurd h (by simp)
          · rw [if_neg hr0] at h
            simp only [Except.ok.injEq, Prod.mk.injEq] at h
            obtain ⟨hl, hr⟩ := h
            subst hl
            subst hr
            obtain ⟨hx, hjs⟩ :=
              (splitOnFirst_some_iff hsep s.toList l0 r0).mp hsp
            exact ⟨hx, hl0, hr0, hjs⟩
    · rintro ⟨hx, hl, hr, hjs⟩
      have hsp : splitOnFirst idSeparator s.toList =
          some (l.toList, r.toList) :=
        (splitOnFirst_some_iff hsep s.toList l.toList r.toList).mpr ⟨hx, hjs⟩
      rw [_parse_two_ids_or_abort, hsp]
      dsimp only
      rw [if_neg hl, if_neg hr]
      rfl
  · intro hno
    have hsp : splitOnFirst idSeparator s.toList = none :=
      (splitOnFirst_none_iff hsep s.toList).mpr hno
    rw [_parse_two_ids_or_abort, hsp]

/-- Witness for C8 at the concrete token `a...b`. -/
theorem C8_parse_two_ids_spec_witness :
    _parse_two_ids_or_abort "a...b" = .ok ("a", "b") ∧
    ("a...b".toList = "a".toList ++ idSeparator ++ "b".toList ∧
      "a".toList ≠ [] ∧ "b".toList ≠ [] ∧
      ∀ j < "a".toList.length,
        ¬ idSeparator.isPrefixOf ("a...b".toList.drop j)) := by
  have h := (C8_parse_two_ids_spec "a...b").1 "a" "b"
  have hd : "a...b".toList = "a".toList ++ idSeparator ++ "b".toList ∧
      "a".toList ≠ [] ∧ "b".toList ≠ [] ∧
      ∀ j < "a".toList.length,
        ¬ idSeparator.isPrefixOf ("a...b".toList.drop j) := by
    refine ⟨by decide, by decide, by decide, ?_⟩
    intro j hj
    have hj0 : j = 0 := by
      have h1 : j < 1 := by simpa using hj
      omega
    subst hj0
    decide
  exact ⟨h.mpr hd, hd⟩

/-- C7: `page_size` defaults to 100 and must lie in 1..1000; out-of-range
values abort with the invalid-page-size error; 0 and 1001 fail while 1000
succeeds. -/
theorem C7_page_size_validation (db : List DBResultRow) (args : ListArgs) :
    (args.page_size = none →
      benchmark_results_get db args =
        benchmark_results_get db { args with page_size := some 100 }) ∧
    (∀ v : ℤ, args.page_size = some v → ¬(1 ≤ v ∧ v ≤ 1000) →
      benchmark_results_get db args =
        .abort 400 "page_size must be a positive integer no greater than 1000") ∧
    (∀ v : ℤ, args.page_size = some v → 1 ≤ v → v ≤ 1000 →
      ∃ rows cur, benchmark_results_get db args = .ok (rows, cur)) ∧
    (benchmark_results_get db { args with page_size := some 0 } =
      .abort 400 "page_size must be a positive integer no greater than 1000") ∧
    (benchmark_results_get db { args with page_size := some 1001 } =
      .abort 400 "page_size must be a positive integer no greater than 1000") ∧
    (∃ rows cur,
      benchmark_results_get db { args with page_size := some 1000 } =
        .ok (rows, cur)) := by
  have hfilters : listFilters { args with page_size := some 100 } =
      listFilters args := rfl
  refine ⟨?_, ?_, ?_, ?_, ?_, ?_⟩
  · intro hnone
    rw [benchmark_results_get, benchmark_results_get]
    rw [show parsePageSize ({ args with page_size := some 100 } :
        ListArgs).page_size = parsePageSize args.page_size by
      rw [hnone]; rfl]
    rw [hfilters]
  · intro v hv hrange
    rw [benchmark_results_get]
    have : parsePageSize args.page_size = none := by
      rw [hv, parsePageSize]
      simp only [Option.getD_some]
      rw [if_neg hrange]
    rw [this]
  · intro v hv h1 h2
    rw [benchmark_results_get]
    have : parsePageSize args.page_size = some v := by
      rw [hv, parsePageSize]
      simp only [Option.getD_some]
      rw [if_pos ⟨h1, h2⟩]
    rw [this]
    exact ⟨_, _, rfl⟩
  · rw [benchmark_results_get]
    have : parsePageSize (some 0) = none := by rw [parsePageSize]; simp
    rw [show ({ args with page_size := some 0 } : ListArgs).page_size =
      some 0 from rfl, this]
  · rw [benchmark_results_get]
    have : parsePageSize (some 1001) = none := by
      rw [parsePageSize]
      simp only [Option.getD_some]
      rw [if_neg (by omega)]
    rw [show ({ args with page_size := some 1001 } : ListArgs).page_size =
      some 1001 from rfl, this]
  · rw [benchmark_results_get]
    have : parsePageSize (some 1000) = some 1000 := by
      rw [parsePageSize]
      simp only [Option.getD_some]
      rw [if_pos (by omega)]
    rw [show ({ args with page_size := some 1000 } : ListArgs).page_size =
      some 1000 from rfl, this]
    exact ⟨_, _, rfl⟩

/-- Witness for C7 at concrete inputs. -/
theorem C7_page_size_validation_witness :
    (benchmark_results_get [] { emptyListArgs with page_size := some 0 } =
      .abort 400 "page_size must be a positive integer no greater than 1000") ∧
    (benchmark_results_get [] { emptyListArgs with page_size := some 1001 } =
      .abort 400 "page_size must be a positive integer no greater than 1000") ∧
    ∃ rows cur,
      benchmark_results_get [] { emptyListArgs with page_size := some 1000 } =
        .ok (rows, cur) :=
  ⟨(C7_page_size_validation []
      { emptyListArgs with page_size := some 0 }).2.1 0 rfl (by omega),
    (C7_page_size_validation [] emptyListArgs).2.2.2.2.1,
    (C7_page_size_validation [] emptyListArgs).2.2.2.2.2⟩

/-- In a strictly descending table, the rows whose id is below the id of
the row at index `n` are exactly the rows after index `n`. -/
theorem filter_id_lt_of_sorted (db : List DBResultRow)
    (hsort : List.Pairwise (fun a b => b.id < a.id) db)
    (n : ℕ) (hn : n < db.length) :
    (db.filter fun r => decide (r.id < db[n].id)) = db.drop (n + 1) := by
  have hget := List.pairwise_iff_getElem.mp hsort
  generalize hc : db[n].id = c
  conv_lhs => rw [← List.take_append_drop (n + 1) db]
  rw [List.filter_append]
  have h1 : ((db.take (n + 1)).filter fun r => decide (r.id < c)) = [] := by
    rw [List.filter_eq_nil_iff]
    intro x hx
    obtain ⟨i, hi, hix⟩ := List.mem_iff_getElem.mp hx
    have hilen : i < n + 1 := by
      have := hi
      rw [List.length_take] at this
      omega
    have hidb : i < db.length := by omega
    rw [List.getElem_take] at hix
    by_cases hin : i = n
    · subst hin
      rw [← hix]
      simp [← hc]
    · have hlt : i < n := by omega
      have hrel := hget i n hidb hn hlt
      rw [hc] at hrel
      rw [← hix]
      simp only [decide_eq_true_eq]
      intro hcon
      exact absurd (lt_trans hcon hrel) (lt_irrefl _)
  have h2 : ((db.drop (n + 1)).filter fun r => decide (r.id < c)) =
      db.drop (n + 1) := by
    rw [List.filter_eq_self]
    intro y hy
    obtain ⟨j, hj, hjy⟩ := List.mem_iff_getElem.mp hy
    have hjdb : n + 1 + j < db.length := by
      have := hj
      rw [List.length_drop] at this
      omega
    rw [List.getElem_drop] at hjy
    have hrel := hget n (n + 1 + j) hn hjdb (by omega)
    rw [hc] at hrel
    rw [← hjy]
    simpa using hrel
  rw [h1, h2, List.nil_append]

/-- One paging request under `pagingArgs`, in terms of the filtered table. -/
theorem paging_step (L M : List DBResultRow) (cur : Option String)
    (hflt : (L.filter fun r => (listFilters (pagingArgs cur)).all fun f => f r) = M) :
    benchmark_results_get L (pagingArgs cur) =
      .ok (M.take 100,
        if (M.take 100).length = 100 then
          (M.take 100).getLast?.map fun r => r.id
        else none) := by
  rw [benchmark_results_get]
  have hps : parsePageSize (pagingArgs cur).page_size = some 100 := by
    rw [parsePageSize]
    norm_num [pagingArgs]
  rw [hps]
  dsimp only
  rw [hflt]
  simp only [show Int.toNat 100 = 100 from rfl]

theorem paging_filter_none (L : List DBResultRow)
    (hrun : ∀ r ∈ L, r.run_id = "r") :
    (L.filter fun r => (listFilters (pagingArgs none)).all fun f => f r) = L := by
  rw [List.filter_eq_self]
  intro r hr
  simp [listFilters, pagingArgs, hrun r hr]

theorem paging_filter_cursor (L : List DBResultRow)
    (hrun : ∀ r ∈ L, r.run_id = "r") (c : String)
    (hc : ¬(c = "" ∨ c = "null")) :
    (L.filter fun r => (listFilters (pagingArgs (some c))).all fun f => f r) =
      L.filter fun r => decide (r.id < c) := by
  apply List.filter_congr
  intro r hr
  simp [listFilters, pagingArgs, hrun r hr, hc]

/-- C6: `next_page_cursor` is the id of the page's last row iff the page
holds exactly `page_size` rows, and null otherwise; consequently 250
matching rows at page size 100 paginate as 100/100/50 with the first two
pages carrying a cursor and the third carrying null. -/
theorem C6_next_page_cursor (db : List DBResultRow) (args : ListArgs)
    (rows : List DBResultRow) (cur : Option String) (ps : ℤ)
    (hps : parsePageSize args.page_size = some ps)
    (h : benchmark_results_get db args = .ok (rows, cur)) :
    ((rows.length = ps.toNat → cur = rows.getLast?.map fun r => r.id) ∧
      (rows.length ≠ ps.toNat → cur = none)) ∧
    (∀ L : List DBResultRow,
      L.length = 250 →
      List.Pairwise (fun a b => b.id < a.id) L →
      (∀ r ∈ L, r.run_id = "r") →
      (∀ r ∈ L, r.id ≠ "" ∧ r.id ≠ "null") →
      ∃ p1 c1 p2 c2 p3,
        benchmark_results_get L (pagingArgs none) = .ok (p1, some c1) ∧
        p1.length = 100 ∧
        benchmark_results_get L (pagingArgs (some c1)) = .ok (p2, some c2) ∧
        p2.length = 100 ∧
        benchmark_results_get L (pagingArgs (some c2)) = .ok (p3, none) ∧
        p3.length = 50) := by
  constructor
  · rw [benchmark_results_get, hps] at h
    dsimp only at h
    simp only [ApiResult.ok.injEq, Prod.mk.injEq] at h
    obtain ⟨hrows, hcur⟩ := h
    subst hrows
    subst hcur
    constructor
    · intro hfull
      rw [if_pos hfull]
    · intro hnot
      rw [if_neg hnot]
  · intro L hlen hsort hrun hids
    have h99 : (99 : ℕ) < L.length := by omega
    have h199 : (199 : ℕ) < L.length := by omega
    -- page 1
    have hflt1 := paging_filter_none L hrun
    have hstep1 := paging_step L L none hflt1
    have hlen1 : (L.take 100).length = 100 := by
      simp [List.length_take, hlen]
    have hlast1 : (L.take 100).getLast?.map (fun r => r.id) =
        some (L[99].id) := by
      rw [List.getLast?_eq_getElem?, hlen1]
      rw [List.getElem?_take, if_pos (by omega), List.getElem?_eq_getElem h99]
      rfl
    rw [if_pos hlen1, hlast1] at hstep1
    -- page 2
    have hc1 : ¬(L[99].id = "" ∨ L[99].id = "null") := by
      have := hids L[99] (List.getElem_mem h99)
      tauto
    have hflt2 : (L.filter fun r =>
        (listFilters (pagingArgs (some L[99].id))).all fun f => f r) =
        L.drop 100 := by
      rw [paging_filter_cursor L hrun _ hc1]
      exact filter_id_lt_of_sorted L hsort 99 h99
    have hstep2 := paging_step L (L.drop 100) (some L[99].id) hflt2
    have hlen2 : ((L.drop 100).take 100).length = 100 := by
      simp [List.length_take, List.length_drop, hlen]
    have hd99 : (99 : ℕ) < (L.drop 100).length := by
      rw [List.length_drop]
      omega
    have hlast2 : ((L.drop 100).take 100).getLast?.map (fun r => r.id) =
        some (L[199].id) := by
      rw [List.getLast?_eq_getElem?, hlen2]
      rw [List.getElem?_take, if_pos (by omega),
        List.getElem?_eq_getElem hd99]
      have : (L.drop 100)[99] = L[199] := by
        rw [List.getElem_drop]
      rw [this]
      rfl
    rw [if_pos hlen2, hlast2] at hstep2
    -- page 3
    have hc2 : ¬(L[199].id = "" ∨ L[199].id = "null") := by
      have := hids L[199] (List.getElem_mem h199)
      tauto
    have hflt3 : (L.filter fun r =>
        (listFilters (pagingArgs (some L[199].id))).all fun f => f r) =
        L.drop 200 := by
      rw [paging_filter_cursor L hrun _ hc2]
      exact filter_id_lt_of_sorted L hsort 199 h199
    have hstep3 := paging_step L (L.drop 200) (some L[199].id) hflt3
    have hlen3 : ((L.drop 200).take 100).length = 50 := by
      simp [List.length_take, List.length_drop, hlen]
    rw [if_neg (by rw [hlen3]; omega)] at hstep3
    refine ⟨L.take 100, L[99].id, (L.drop 100).take 100, L[199].id,
      (L.drop 200).take 100, hstep1, hlen1, hstep2, hlen2, hstep3, hlen3⟩

/-- Witness for C6 at a concrete input (empty table, default arguments):
the page is not full, so the cursor is null. -/
theorem C6_next_page_cursor_witness :
    (parsePageSize emptyListArgs.page_size = some 100 ∧
      benchmark_results_get [] emptyListArgs = .ok ([], none)) ∧
    (([] : List DBResultRow).length ≠ (100 : ℤ).toNat →
      (none : Option String) = none) :=
  ⟨⟨rfl, rfl⟩,
    ((C6_next_page_cursor [] emptyListArgs [] none 100 rfl rfl).1).2⟩

/-- Under `do_comparison` with truthy but different units, comparator
construction raises `UnmatchingUnitsError` carrying both ids and units. -/
theorem make_unmatching_units {b c : BenchmarkResult} {t tz : Option ℚ}
    (hdo : computeDoComparison (some b) (some c) = true)
    (hbu : strTruthy b.unit = true) (hcu : strTruthy c.unit = true)
    (hne : b.unit ≠ c.unit) :
    BenchmarkResultComparator.make (some b) (some c) t tz =
      Except.error (.unmatchingUnits ⟨b.id, b.unit, c.id, c.unit⟩) := by
  simp [BenchmarkResultComparator.make, hdo, hbu, hcu, hne]

/-- A successfully constructed comparator with `do_comparison` has equal
units on both sides. -/
theorem make_ok_units {b c : Option BenchmarkResult} {t tz : Option ℚ}
    {comp : BenchmarkResultComparator}
    (h : BenchmarkResultComparator.make b c t tz = Except.ok comp)
    (hdo : comp.do_comparison = true) :
    ∀ rb rc, comp.baseline = some rb → comp.contender = some rc →
      rb.unit = rc.unit := by
  intro rb rc hbase hcont
  obtain ⟨hd, hb, hc, -, -⟩ := make_ok_inv h
  rw [hbase] at hb
  rw [hcont] at hc
  subst hb
  subst hc
  rw [hd] at hdo
  simp only [BenchmarkResultComparator.make, hdo, if_true] at h
  split at h
  · split at h
    · split at h
      · simp at h
      · simp_all
    · simp at h
  · simp at h

/-- Shows `applyZScore` only changes the transient z-score field. -/
theorem applyZScore_fields (env : CompareEnv) (cm : Option String)
    (r : BenchmarkResult) :
    (applyZScore env cm r).unit = r.unit ∧
      (applyZScore env cm r).is_failed = r.is_failed ∧
      (applyZScore env cm r).id = r.id := by
  cases cm <;> simp [applyZScore]

/-- Characterizes `computeDoComparison` over two present results. -/
theorem computeDoComparison_some_some (b c : BenchmarkResult) :
    computeDoComparison (some b) (some c) = true ↔
      b.is_failed = false ∧ c.is_failed = false := by
  rw [computeDoComparison_iff]
  constructor
  · rintro ⟨-, -, hb, hc⟩
    exact ⟨hb b rfl, hc c rfl⟩
  · rintro ⟨hb, hc⟩
    refine ⟨rfl, rfl, ?_, ?_⟩
    · rintro x hx
      cases hx
      exact hb
    · rintro x hx
      cases hx
      exact hc

/-- Comparator construction never hits an `assert` failure when every
present non-failed side has a truthy unit. -/
theorem make_not_assertionError {b c : Option BenchmarkResult}
    {t tz : Option ℚ}
    (hb : ∀ r, b = some r → r.is_failed = false → strTruthy r.unit = true)
    (hc : ∀ r, c = some r → r.is_failed = false → strTruthy r.unit = true) :
    BenchmarkResultComparator.make b c t tz ≠
      Except.error ComparatorError.assertionError := by
  by_cases hdo : computeDoComparison b c = true
  · rcases b with _ | rb
    · rw [computeDoComparison_iff] at hdo
      simp at hdo
    rcases c with _ | rc
    · rw [computeDoComparison_iff] at hdo
      simp at hdo
    obtain ⟨hbf, hcf⟩ := (computeDoComparison_some_some rb rc).mp hdo
    have hbu := hb rb rfl hbf
    have hcu := hc rc rfl hcf
    simp only [BenchmarkResultComparator.make, hdo, if_true, hbu, hcu]
    split <;> simp
  · have hdo' : computeDoComparison b c = false := by
      cases hd : computeDoComparison b c
      · rfl
      · exact absurd hd hdo
    simp [BenchmarkResultComparator.make, hdo']

/-- Shows `collectComparators` succeeds when no pair can hit an `assert` failure,
keeps exactly the successfully constructed comparators, and drops exactly
the unit-mismatched pairs. -/
theorem collectComparators_ok
    (pairs : List (Option BenchmarkResult × Option BenchmarkResult))
    (t tz : Option ℚ)
    (hsafe : ∀ p ∈ pairs, BenchmarkResultComparator.make p.1 p.2 t tz ≠
      Except.error ComparatorError.assertionError) :
    ∃ comps, collectComparators pairs t tz = .ok comps ∧
      (∀ comp ∈ comps, ∃ p ∈ pairs,
        BenchmarkResultComparator.make p.1 p.2 t tz = Except.ok comp) ∧
      (∀ p ∈ pairs,
        (∃ comp ∈ comps,
          BenchmarkResultComparator.make p.1 p.2 t tz = Except.ok comp) ∨
        ∃ e, BenchmarkResultComparator.make p.1 p.2 t tz =
          Except.error (.unmatchingUnits e)) := by
  induction pairs with
  | nil => exact ⟨[], rfl, by simp, by simp⟩
  | cons p rest ih =>
    have hsafe' : ∀ q ∈ rest, BenchmarkResultComparator.make q.1 q.2 t tz ≠
        Except.error ComparatorError.assertionError :=
      fun q hq => hsafe q (List.mem_cons_of_mem p hq)
    obtain ⟨comps, hok, hmem, hcover⟩ := ih hsafe'
    rcases p with ⟨b, c⟩
    rcases hmk : BenchmarkResultComparator.make b c t tz with err | comp
    · rcases err with e | _
      · refine ⟨comps, ?_, ?_, ?_⟩
        · rw [collectComparators, hmk]
          exact hok
        · intro x hx
          obtain ⟨q, hq, hqmk⟩ := hmem x hx
          exact ⟨q, List.mem_cons_of_mem _ hq, hqmk⟩
        · intro q hq
          rcases List.mem_cons.mp hq with rfl | hq'
          · exact Or.inr ⟨e, hmk⟩
          · exact hcover q hq'
      · exact absurd hmk (hsafe (b, c) (List.mem_cons_self _ _))
    · refine ⟨comp :: comps, ?_, ?_, ?_⟩
      · rw [collectComparators, hmk, hok]
        rfl
      · intro x hx
        rcases List.mem_cons.mp hx with rfl | hx'
        · exact ⟨(b, c), List.mem_cons_self _ _, hmk⟩
        · obtain ⟨q, hq, hqmk⟩ := hmem x hx'
          exact ⟨q, List.mem_cons_of_mem _ hq, hqmk⟩
      · intro q hq
        rcases List.mem_cons.mp hq with rfl | hq'
        · exact Or.inl ⟨comp, List.mem_cons_self _ _, hmk⟩
        · rcases hcover q hq' with ⟨x, hx, hxmk⟩ | ⟨e, he⟩
          · exact Or.inl ⟨x, List.mem_cons_of_mem _ hx, hxmk⟩
          · exact Or.inr ⟨e, he⟩

/-- Each side of a joined pair is either absent or one of the corresponding
input results. -/
theorem join_results_sides {bs cs : List BenchmarkResult} :
    ∀ p ∈ _join_results bs cs,
      (p.1 = none ∨ ∃ r ∈ bs, p.1 = some r) ∧
        (p.2 = none ∨ ∃ r ∈ cs, p.2 = some r) := by
  intro p hp
  obtain ⟨f, hf, hpg⟩ := List.mem_flatMap.mp hp
  obtain ⟨h1, h2⟩ := mem_groupPairs.mp hpg
  constructor
  · rcases mem_orNoneList.mp h1 with ⟨-, hb⟩ | ⟨rb, hrb, hb⟩
    · exact Or.inl hb
    · exact Or.inr ⟨rb, (List.mem_filter.mp hrb).1, hb⟩
  · rcases mem_orNoneList.mp h2 with ⟨-, hc⟩ | ⟨rc, hrc, hc⟩
    · exact Or.inl hc
    · exact Or.inr ⟨rc, (List.mem_filter.mp hrc).1, hc⟩

/-- C4: under `do_comparison` with differing units, comparator construction
fails with a unit-mismatch error carrying both units and both result ids;
the single-pair compare endpoint turns this into a 400 bad-request outcome,
while the bulk run-comparison endpoint silently omits such pairs from its
output list and still succeeds. -/
theorem C4_unit_mismatch_handling (env : CompareEnv) (ids bid cid : String)
    (b c : BenchmarkResult) (t tz : Option ℚ)
    (hparse : _parse_two_ids_or_abort ids = .ok (bid, cid)) :
    (computeDoComparison (some b) (some c) = true →
      strTruthy b.unit = true → strTruthy c.unit = true → b.unit ≠ c.unit →
      BenchmarkResultComparator.make (some b) (some c) t tz =
        Except.error (.unmatchingUnits ⟨b.id, b.unit, c.id, c.unit⟩)) ∧
    (env.resultById bid = some b → env.resultById cid = some c →
      b.is_failed = false → c.is_failed = false →
      strTruthy b.unit = true → strTruthy c.unit = true → b.unit ≠ c.unit →
      CompareBenchmarkResultsAPI_inner env ids t tz =
        .error (400, unmatchingUnitsMessage ⟨b.id, b.unit, c.id, c.unit⟩)) ∧
    (env.resultsByRunId bid ≠ [] → env.resultsByRunId cid ≠ [] →
      (∀ r ∈ env.resultsByRunId bid, r.is_failed = false →
        strTruthy r.unit = true) →
      (∀ r ∈ env.resultsByRunId cid, r.is_failed = false →
        strTruthy r.unit = true) →
      ∃ comps, CompareRunsAPI_inner env ids t tz = .ok comps ∧
        ∀ comp ∈ comps, comp.do_comparison = true →
          ∀ rb rc, comp.baseline = some rb → comp.contender = some rc →
            rb.unit = rc.unit) := by
  refine ⟨fun hdo hbu hcu hne => make_unmatching_units hdo hbu hcu hne,
    ?_, ?_⟩
  · intro hdb hdc hbf hcf hbu hcu hne
    rw [CompareBenchmarkResultsAPI_inner, hparse]
    dsimp only
    rw [hdb]
    dsimp only
    rw [hdc]
    dsimp only
    obtain ⟨hu, hf, hid⟩ := applyZScore_fields env b.commit c
    have hdo : computeDoComparison (some b)
        (some (applyZScore env b.commit c)) = true :=
      (computeDoComparison_some_some _ _).mpr ⟨hbf, by rw [hf]; exact hcf⟩
    have hmk := @make_unmatching_units b (applyZScore env b.commit c) t tz
      hdo hbu (by rw [hu]; exact hcu) (by rw [hu]; exact hne)
    rw [hmk]
    dsimp only
    rw [hu, hid]
  · intro hbne hcne hbsafe hcsafe
    rw [CompareRunsAPI_inner, hparse]
    dsimp only
    obtain ⟨b0, brest, hb⟩ : ∃ x xs, env.resultsByRunId bid = x :: xs := by
      cases h : env.resultsByRunId bid with
      | nil => exact absurd h hbne
      | cons x xs => exact ⟨x, xs, rfl⟩
    obtain ⟨c0, crest, hc⟩ : ∃ x xs, env.resultsByRunId cid = x :: xs := by
      cases h : env.resultsByRunId cid with
      | nil => exact absurd h hcne
      | cons x xs => exact ⟨x, xs, rfl⟩
    rw [hb]
    dsimp only
    rw [hc]
    dsimp only
    have hsafe : ∀ p ∈ _join_results (b0 :: brest)
        ((c0 :: crest).map (applyZScore env b0.commit)),
        BenchmarkResultComparator.make p.1 p.2 t tz ≠
          Except.error ComparatorError.assertionError := by
      intro p hp
      obtain ⟨hps1, hps2⟩ := join_results_sides p hp
      apply make_not_assertionError
      · intro r hr hrf
        rcases hps1 with h | ⟨r', hr', heq⟩
        · rw [h] at hr
          cases hr
        · rw [heq] at hr
          cases hr
          apply hbsafe r _ hrf
          rw [hb]
          exact hr'
      · intro r hr hrf
        rcases hps2 with h | ⟨r', hr', heq⟩
        · rw [h] at hr
          cases hr
        · rw [heq] at hr
          cases hr
          obtain ⟨r0, hr0, rfl⟩ := List.mem_map.mp hr'
          obtain ⟨hu0, hf0, -⟩ := applyZScore_fields env b0.commit r0
          rw [hu0]
          apply hcsafe r0 _ (by rw [hf0] at hrf; exact hrf)
          rw [hc]
          exact hr0
    obtain ⟨comps, hok, hmem, -⟩ := collectComparators_ok _ t tz hsafe
    rw [hok]
    exact ⟨comps, rfl, fun comp hcomp hdo rb rc hbase hcont =>
      (make_ok_units (hmem comp hcomp).choose_spec.2 hdo) rb rc hbase hcont⟩

/-- Witness for C4 at concrete inputs: the single-pair endpoint aborts with
400 on the unit-mismatched pair, while the bulk endpoint succeeds with no
mismatched pair in its output. -/
theorem C4_unit_mismatch_handling_witness :
    CompareBenchmarkResultsAPI_inner exampleEnv "id-base...id-mis" none none =
      .error (400, unmatchingUnitsMessage
        ⟨"id-base", some "s", "id-mis", some "i"⟩) ∧
    ∃ comps,
      CompareRunsAPI_inner exampleEnv "run-base...run-mis" none none =
        .ok comps ∧
      ∀ comp ∈ comps, comp.do_comparison = true →
        ∀ rb rc, comp.baseline = some rb → comp.contender = some rc →
          rb.unit = rc.unit := by
  constructor
  · exact (C4_unit_mismatch_handling exampleEnv "id-base...id-mis"
      "id-base" "id-mis" exampleBaseline100 exampleMismatchContender
      none none rfl).2.1 rfl rfl rfl rfl (by decide) (by decide) (by decide)
  · exact (C4_unit_mismatch_handling exampleEnv "run-base...run-mis"
      "run-base" "run-mis" exampleBaseline100 exampleMismatchContender
      none none rfl).2.2 (by decide) (by decide) (by decide) (by decide)

theorem compareGetOuter_zero {β : Type} (inner : Except (ℕ × String) β) :
    compareGetOuter 0 inner =
      (.retryLater "doing other /compare work, retry soon", 0) := by
  simp [compareGetOuter, semTryAcquire]

theorem compareGetOuter_pos {β : Type} (slots : ℕ) (h : 0 < slots)
    (inner : Except (ℕ × String) β) :
    compareGetOuter slots inner = (routeResponse inner, slots) := by
  have hrel : semRelease (slots - 1) = slots := by
    rw [semRelease]
    omega
  rcases inner with ⟨code, msg⟩ | b
  · simp [compareGetOuter, semTryAcquire, h, routeResponse, hrel]
  · simp [compareGetOuter, semTryAcquire, h, routeResponse, hrel]

/-- C9: both compare endpoints run the guarded `_get` only after acquiring
the capacity-1 gate; a failed acquisition immediately yields the distinct
retry-later response without touching the store; a held slot is released on
every exit path (normal result and abort alike); with capacity 1, a second
acquire while the slot is held fails, and it succeeds again after release. -/
theorem C9_admission_gate (env : CompareEnv) (ids : String)
    (t tz : Option ℚ) :
    (semTryAcquire 1 = (true, 0) ∧ semTryAcquire 0 = (false, 0) ∧
      semTryAcquire (semRelease 0) = (true, 0)) ∧
    (∀ slots, slots = 0 →
      (CompareBenchmarkResultsAPI_get env slots ids t tz =
        (.retryLater "doing other /compare work, retry soon", 0) ∧
       CompareRunsAPI_get env slots ids t tz =
        (.retryLater "doing other /compare work, retry soon", 0)) ∧
      (∀ env2 : CompareEnv,
        CompareBenchmarkResultsAPI_get env slots ids t tz =
          CompareBenchmarkResultsAPI_get env2 slots ids t tz ∧
        CompareRunsAPI_get env slots ids t tz =
          CompareRunsAPI_get env2 slots ids t tz)) ∧
    (∀ slots, 0 < slots →
      CompareBenchmarkResultsAPI_get env slots ids t tz =
        (routeResponse (CompareBenchmarkResultsAPI_inner env ids t tz),
          slots) ∧
      CompareRunsAPI_get env slots ids t tz =
        (routeResponse (CompareRunsAPI_inner env ids t tz), slots)) := by
  refine ⟨⟨rfl, rfl, rfl⟩, ?_, ?_⟩
  · intro slots hs
    subst hs
    refine ⟨⟨compareGetOuter_zero _, compareGetOuter_zero _⟩, ?_⟩
    intro env2
    rw [CompareBenchmarkResultsAPI_get, CompareRunsAPI_get,
      CompareBenchmarkResultsAPI_get, CompareRunsAPI_get]
    rw [compareGetOuter_zero, compareGetOuter_zero, compareGetOuter_zero,
      compareGetOuter_zero]
    exact ⟨rfl, rfl⟩
  · intro slots hs
    rw [CompareBenchmarkResultsAPI_get, CompareRunsAPI_get]
    exact ⟨compareGetOuter_pos slots hs _, compareGetOuter_pos slots hs _⟩

/-- Witness for C9 at concrete inputs: with the slot taken the endpoint
returns retry-later; with a free slot it returns the guarded result and the
slot count is restored. -/
theorem C9_admission_gate_witness :
    CompareBenchmarkResultsAPI_get exampleEnv 0 "id-base...id-mis" none none =
      (.retryLater "doing other /compare work, retry soon", 0) ∧
    CompareBenchmarkResultsAPI_get exampleEnv 1 "id-base...id-mis" none none =
      (routeResponse (CompareBenchmarkResultsAPI_inner exampleEnv
        "id-base...id-mis" none none), 1) :=
  ⟨((C9_admission_gate exampleEnv "id-base...id-mis" none none).2.1 0
      rfl).1.1,
    ((C9_admission_gate exampleEnv "id-base...id-mis" none none).2.2 1
      (by omega)).1⟩

end Conbench
